import Mathlib

/-!
Verification development for the Imagematch backend (actor image matcher).

The embedding models the retrieval core and its HTTP glue:
* `backend/app/services/search.py` — the `ActorIndex` class: lazy load of the
  two persisted artifacts (`embeddings.npy`, `metadata.json`), defensive row
  renormalization, row-count validation, and exact cosine top-k search.
* `backend/app/main.py` — the `/match-actors` and `/match-actors-batch`
  handlers: content-type and size validation, error-to-status mapping.
* `backend/scripts/build_actor_index.py` — `compute_actor_vectors` (per-entity
  sampling, mean aggregation, ε-guarded renormalization, optional clustering)
  and the CLI input-mode selection in `main`.

Vectors are embedded as `List ℝ`; numpy float32 arithmetic is modelled by
exact real arithmetic.  File-system and model-inference effects are modelled
by data: the disk contents are a `Disk` value, and each uploaded or dataset
image carries the outcome its bytes would produce from `image_embedding`
(`none` = the call raises, `some v` = it returns vector `v`).
-/

/-- One entry of `metadata.json`.  The builder writes `{name, image_rel}` and,
in cluster mode, a `cluster` field; the serving side reads the fields back
with `dict.get`, so every field is optional here. -/
structure MetaEntry where
  name : Option String
  image_rel : Option String
  cluster : Option Nat
deriving DecidableEq

/-- Contents of the persisted artifacts directory: `embeddings.npy`
(`none` = file missing) and `metadata.json` (`none` = file missing). -/
structure Disk where
  emb : Option (List (List ℝ))
  meta : Option (List MetaEntry)

/-- Mutable fields of the `ActorIndex` singleton (`search.py`, lines 13-17). -/
structure ActorIndexState where
  loaded : Bool
  emb : Option (List (List ℝ))
  meta : Option (List MetaEntry)

/-- State of the freshly constructed `ActorIndex()` singleton. -/
def ActorIndexState.init : ActorIndexState := ⟨false, none, none⟩

/-- The two distinguishable load-time errors of `ActorIndex.ensure_loaded`:
`FileNotFoundError` ("Actor index not built ...") when an artifact is
missing, `ValueError` ("Metadata and embeddings row counts do not match")
when the artifacts are inconsistent. -/
inductive LoadError where
  | indexNotBuilt
  | corruptIndex
deriving DecidableEq

/-- Model of `file.content_type.startswith("image/")`. -/
def startsWithImage (t : String) : Bool := "image/".toList.isPrefixOf t.toList

/-- Model of `file.content_type is None or not file.content_type.startswith("image/")`. -/
def badContentType (ct : Option String) : Bool :=
  match ct with
  | none => true
  | some t => !(startsWithImage t)

/-- The 10 MiB upload limit of `main.py` (`10 * 1024 * 1024`). -/
def maxUploadBytes : Nat := 10 * 1024 * 1024

/-- Truthiness of an `argparse` string option (`None` and `""` are falsy). -/
def argTruthy : Option String → Bool
  | none => false
  | some s => !s.isEmpty

/-- Input mode chosen by the builder CLI. -/
inductive BuilderMode where
  | dataset (dir : String)
  | table (csvPath : String)
  | usageExit
deriving DecidableEq

/-- Model of the input-mode dispatch in `build_actor_index.py`, `main`
(lines 124-129): `if args.dataset_dir: ... elif args.csv: ... else:
raise SystemExit(usage message)`. -/
def select_input_mode (datasetDir csvPath : Option String) : BuilderMode :=
  if argTruthy datasetDir then .dataset (datasetDir.getD "")
  else if argTruthy csvPath then .table (csvPath.getD "")
  else .usageExit

noncomputable section

/-- The ε of the guarded normalization `v / (||v|| + 1e-12)`. -/
def eps : ℝ := 1 / 1000000000000

/-- Dot product of two vectors (`np.dot` on equal-length rows). -/
def dot (v w : List ℝ) : ℝ := (List.zipWith (· * ·) v w).sum

/-- Euclidean norm `np.linalg.norm v`. -/
def norm2 (v : List ℝ) : ℝ := Real.sqrt (dot v v)

/-- The ε-guarded normalization `v / (np.linalg.norm(v) + 1e-12)` used by
`ensure_loaded` (per row), `topk` (query) and the builder (mean/centroid). -/
def normalizeVec (v : List ℝ) : List ℝ := v.map (fun x => x / (norm2 v + eps))

/-- Model of `np.argsort(-sims)`: the indices `0..n-1` sorted so that their
keys are non-increasing.  numpy's quicksort leaves the order of equal keys
unspecified; this model fixes one consistent tie-break, which is all the
spec demands. -/
def argsortDesc (keys : List ℝ) : List Nat :=
  List.insertionSort (fun i j => keys.getD j 0 ≤ keys.getD i 0) (List.range keys.length)

/-- The pure computation of `ActorIndex.topk` after the index is loaded
(`search.py`, lines 39-44): normalize the query, take dot products against
every row, and keep the `k` best indices with their similarities. -/
def ActorIndex.topkCore (emb : List (List ℝ)) (query : List ℝ) (k : Nat) :
    List (Nat × ℝ) :=
  let q := normalizeVec query
  let sims := emb.map (fun row => dot row q)
  ((argsortDesc sims).take k).map (fun i => (i, sims.getD i 0))

/-- Model of `ActorIndex.ensure_loaded` (`search.py`, lines 19-34).  Returns
the mutated instance state together with the raised error, if any.  Mirrors
the statement order of the source: on a row-count mismatch the `_emb` and
`_meta` fields have already been assigned, but `_loaded` has not been set. -/
def ensure_loaded (d : Disk) (s : ActorIndexState) :
    ActorIndexState × Option LoadError :=
  if s.loaded then (s, none)
  else if d.emb.isNone || d.meta.isNone then (s, some .indexNotBuilt)
  else
    let e := (d.emb.getD []).map normalizeVec
    let m := d.meta.getD []
    let s' : ActorIndexState := ⟨false, some e, some m⟩
    if m.length ≠ e.length then (s', some .corruptIndex)
    else ({ s' with loaded := true }, none)

/-- Model of `ActorIndex.topk` (`search.py`, lines 36-44): run
`ensure_loaded`, propagating its exception, then search the cached matrix. -/
def ActorIndex.topk (d : Disk) (s : ActorIndexState) (query : List ℝ) (k : Nat) :
    ActorIndexState × Except LoadError (List (Nat × ℝ)) :=
  match ensure_loaded d s with
  | (s', some err) => (s', .error err)
  | (s', none) => (s', .ok (ActorIndex.topkCore (s'.emb.getD []) query k))

/-- Model of `ActorIndex.info` (`search.py`, lines 46-48). -/
def ActorIndex.info (s : ActorIndexState) (idx : Nat) : MetaEntry :=
  (s.meta.getD []).getD idx ⟨none, none, none⟩

/-- One uploaded file, abstracted to what the handlers inspect: its name, its
declared content type, its payload size in bytes, and the outcome
`image_embedding` would produce on its bytes (`none` = the call raises). -/
structure Upload where
  filename : String
  contentType : Option String
  size : Nat
  embOutcome : Option (List ℝ)

/-- One entry of the `results` array (`schemas.MatchResult`). -/
structure MatchResult where
  name : String
  score : ℝ
  image_url : Option String

/-- Outcome of the single-image endpoint: a JSON body or an `HTTPException`
status. -/
inductive HandlerResponse where
  | ok (results : List MatchResult)
  | httpError (status : Nat)

/-- The result-building loop of both handlers (`main.py`, lines 56-63 and
87-91): look up metadata, default the name to `"Actor {idx}"`, and build the
static image URL when a relative path is stored. -/
def buildResults (s : ActorIndexState) (top : List (Nat × ℝ)) : List MatchResult :=
  top.map (fun p =>
    let inf := ActorIndex.info s p.1
    { name := inf.name.getD ("Actor " ++ toString p.1)
      score := p.2
      image_url := inf.image_rel.map (fun r => "/actors/" ++ r) })

/-- Model of the `POST /match-actors` handler (`main.py`, lines 32-65). -/
def match_actors (d : Disk) (s : ActorIndexState) (file : Upload) (top_k : Nat) :
    ActorIndexState × HandlerResponse :=
  if badContentType file.contentType then (s, .httpError 400)
  else if maxUploadBytes < file.size then (s, .httpError 413)
  else
    match file.embOutcome with
    | none => (s, .httpError 400)
    | some q =>
      match ActorIndex.topk d s q top_k with
      | (s', .error .indexNotBuilt) => (s', .httpError 503)
      | (s', .error .corruptIndex) => (s', .httpError 500)
      | (s', .ok top) => (s', .ok (buildResults s' top))

/-- Per-file outcome in the batch endpoint: either a `results` entry or an
`error` entry, always keyed by the original filename. -/
inductive BatchPayload where
  | results (items : List MatchResult)
  | failure (msg : String)

/-- Whether a batch entry is an `error` entry. -/
def BatchPayload.isFailure : BatchPayload → Bool
  | .results _ => false
  | .failure _ => true

/-- One element of the batch response's `items` array. -/
structure BatchItem where
  filename : String
  payload : BatchPayload

/-- Outcome of the batch endpoint: the aggregated `items` array, or an
`HTTPException` status aborting the whole request. -/
inductive BatchResponse where
  | ok (items : List BatchItem)
  | httpError (status : Nat)

/-- What one iteration of the batch loop does to one file. -/
inductive FileStep where
  | item (it : BatchItem)
  | abort (status : Nat)

/-- The body of the batch loop (`main.py`, lines 77-96): validation failures
and processing failures become `error` entries for that file; the
`FileNotFoundError` from `ActorIndex.topk` is re-raised as a 503 aborting
the request, while every other exception is caught per file. -/
def processFile (d : Disk) (s : ActorIndexState) (f : Upload) (k : Nat) :
    ActorIndexState × FileStep :=
  if badContentType f.contentType then (s, .item ⟨f.filename, .failure "이미지 아님"⟩)
  else if maxUploadBytes < f.size then
    (s, .item ⟨f.filename, .failure "파일이 너무 큼(>10MB)"⟩)
  else
    match f.embOutcome with
    | none => (s, .item ⟨f.filename, .failure "처리 실패"⟩)
    | some q =>
      match ActorIndex.topk d s q k with
      | (s', .error .indexNotBuilt) => (s', .abort 503)
      | (s', .error .corruptIndex) => (s', .item ⟨f.filename, .failure "처리 실패"⟩)
      | (s', .ok top) => (s', .item ⟨f.filename, .results (buildResults s' top)⟩)

/-- The `for f in files` loop of the batch endpoint, threading the index
state; an abort discards all accumulated outputs, as raising an
`HTTPException` does. -/
def batchLoop (d : Disk) (k : Nat) :
    ActorIndexState → List Upload → ActorIndexState × BatchResponse
  | s, [] => (s, .ok [])
  | s, f :: rest =>
    match processFile d s f k with
    | (s', .abort st) => (s', .httpError st)
    | (s', .item it) =>
      match batchLoop d k s' rest with
      | (s'', .httpError st) => (s'', .httpError st)
      | (s'', .ok items) => (s'', .ok (it :: items))

/-- Model of the `POST /match-actors-batch` handler (`main.py`, lines 68-98). -/
def match_actors_batch (d : Disk) (s : ActorIndexState) (files : List Upload)
    (top_k : Nat) : ActorIndexState × BatchResponse :=
  if files.isEmpty then (s, .httpError 400)
  else batchLoop d top_k s files

/-- One dataset image as the builder sees it: its filename extension
(`p.suffix`), the outcome `image_embedding` would produce on its bytes
(`none` = the call raises), and whether the representative-image file exists
after the copy attempt (`target.exists()` after the guarded `Image.save`). -/
structure Img where
  ext : String
  embOutcome : Option (List ℝ)
  savable : Bool

/-- Representative-image filename: sanitized entity name (spaces replaced by
underscores) plus the lower-cased original extension. -/
def repName (entity : String) (img : Img) : String :=
  (entity.replace " " "_") ++ img.ext.toLower

/-- Accumulator of the per-image loop in `compute_actor_vectors`: the
successful embeddings in order, and the representative image name once one
has been secured. -/
structure ScanAcc where
  embs : List (List ℝ)
  rep : Option String

/-- One iteration of the per-image loop (`build_actor_index.py`, lines
66-83): on embedding failure skip the image; on success append the embedding
and, if no representative exists yet and the copy left a file on disk,
record the representative name. -/
def scanStep (entity : String) (acc : ScanAcc) (img : Img) : ScanAcc :=
  match img.embOutcome with
  | none => acc
  | some e =>
    { embs := acc.embs ++ [e]
      rep :=
        match acc.rep with
        | some r => some r
        | none => if img.savable then some (repName entity img) else none }

/-- The per-entity sampling loop: `for i, p in enumerate(paths[:20])`. -/
def scanEntity (entity : String) (imgs : List Img) : ScanAcc :=
  (imgs.take 20).foldl (scanStep entity) ⟨[], none⟩

/-- Componentwise sum of a non-empty rectangular batch of rows. -/
def sumVecs : List (List ℝ) → List ℝ
  | [] => []
  | v :: vs => vs.foldl (fun a b => List.zipWith (· + ·) a b) v

/-- Model of `np.mean(X, axis=0)` on a rectangular batch. -/
def meanVec (X : List (List ℝ)) : List ℝ :=
  (sumVecs X).map (fun x => x / (X.length : ℝ))

/-- The rows and metadata one entity contributes (`build_actor_index.py`,
lines 61-110).  `kmeans c X` models `KMeans(n_clusters=c).fit_predict(X)`:
`some labels` is a successful clustering, `none` means the import or the fit
raised (the `except` branch falls back to the single mean). -/
def entityRows (kmeans : Nat → List (List ℝ) → Option (List Nat))
    (clusters : Nat) (entity : String) (imgs : List Img) :
    List (List ℝ × MetaEntry) :=
  if imgs.isEmpty then []
  else
    let acc := scanEntity entity imgs
    if acc.embs.isEmpty then []
    else if 1 < clusters ∧ clusters ≤ acc.embs.length then
      match kmeans clusters acc.embs with
      | some labels =>
        (List.range clusters).filterMap (fun c =>
          let members := ((acc.embs.zip labels).filter (fun p => p.2 == c)).map Prod.fst
          if members.isEmpty then none
          else some (normalizeVec (meanVec members), ⟨some entity, acc.rep, some c⟩))
      | none => [(normalizeVec (meanVec acc.embs), ⟨some entity, acc.rep, none⟩)]
    else [(normalizeVec (meanVec acc.embs), ⟨some entity, acc.rep, none⟩)]

/-- Model of `sorted(groups.items())`: the entity groups in name order
(group names are dict keys, hence distinct, so the second tuple component is
never compared). -/
def sortGroups (groups : List (String × List Img)) : List (String × List Img) :=
  List.insertionSort (fun a b => a.1 ≤ b.1) groups

/-- Model of `compute_actor_vectors` (`build_actor_index.py`, lines 57-111):
the stacked embedding matrix and the parallel metadata list. -/
def compute_actor_vectors (kmeans : Nat → List (List ℝ) → Option (List Nat))
    (groups : List (String × List Img)) (clusters : Nat) :
    List (List ℝ) × List MetaEntry :=
  let rows := (sortGroups groups).flatMap (fun g => entityRows kmeans clusters g.1 g.2)
  (rows.map Prod.fst, rows.map Prod.snd)

/-- The successful embeddings an entity's first 20 images contribute. -/
def succEmbs (g : String × List Img) : List (List ℝ) :=
  (g.2.take 20).filterMap Img.embOutcome

end

noncomputable section

/-- The `argsort` output is a permutation of the row indices. -/
lemma argsortDesc_perm (keys : List ℝ) :
    (argsortDesc keys).Perm (List.range keys.length) :=
  List.perm_insertionSort _ _

/-- The `argsort` output has one entry per row. -/
lemma argsortDesc_length (keys : List ℝ) :
    (argsortDesc keys).length = keys.length := by
  simpa using (argsortDesc_perm keys).length_eq

/-- The `argsort` output lists the indices in non-increasing key order. -/
lemma argsortDesc_sorted (keys : List ℝ) :
    List.Pairwise (fun i j => keys.getD j 0 ≤ keys.getD i 0) (argsortDesc keys) := by
  haveI : IsTotal Nat (fun i j => keys.getD j 0 ≤ keys.getD i 0) :=
    ⟨fun _ _ => le_total _ _⟩
  haveI : IsTrans Nat (fun i j => keys.getD j 0 ≤ keys.getD i 0) :=
    ⟨fun _ _ _ hab hbc => le_trans hbc hab⟩
  exact List.sorted_insertionSort _ _

/-- Every index in the `argsort` output is a valid row index. -/
lemma argsortDesc_mem {keys : List ℝ} {i : Nat} (h : i ∈ argsortDesc keys) :
    i < keys.length := by
  have := (argsortDesc_perm keys).mem_iff.mp h
  simpa using this

end

/-- C1: for every loaded index of `N` rows and every `k ≥ 1`, `topk` returns
an ordered sequence of `(rowIndex, similarityScore)` pairs of length
`min k N`, sorted non-increasingly by similarity (each pair carrying a valid
row index and that row's similarity against the normalized query); in
particular for `k ≥ N` it returns exactly `N` results. -/
theorem topk_length_and_order (emb : List (List ℝ)) (q : List ℝ) (k : Nat)
    (hk : 1 ≤ k) :
    (ActorIndex.topkCore emb q k).length = min k emb.length
    ∧ List.Pairwise (fun p p' : Nat × ℝ => p'.2 ≤ p.2) (ActorIndex.topkCore emb q k)
    ∧ (∀ p ∈ ActorIndex.topkCore emb q k,
        p.1 < emb.length
        ∧ p.2 = (emb.map (fun row => dot row (normalizeVec q))).getD p.1 0)
    ∧ (emb.length ≤ k → (ActorIndex.topkCore emb q k).length = emb.length) := by
  set sims := emb.map (fun row => dot row (normalizeVec q)) with hsims
  have hslen : sims.length = emb.length := by simp [hsims]
  have hlen : (ActorIndex.topkCore emb q k).length = min k emb.length := by
    simp [ActorIndex.topkCore, ← hsims, argsortDesc_length, hslen]
  refine ⟨hlen, ?_, ?_, ?_⟩
  · have h1 : List.Pairwise (fun i j => sims.getD j 0 ≤ sims.getD i 0)
        ((argsortDesc sims).take k) :=
      List.Pairwise.sublist (List.take_sublist k _) (argsortDesc_sorted sims)
    have h2 : List.Pairwise (fun p p' : Nat × ℝ => p'.2 ≤ p.2)
        (((argsortDesc sims).take k).map (fun i => (i, sims.getD i 0))) :=
      List.Pairwise.map (fun i => (i, sims.getD i 0)) (fun a b hab => hab) h1
    simpa [ActorIndex.topkCore, ← hsims] using h2
  · intro p hp
    simp only [ActorIndex.topkCore, ← hsims, List.mem_map] at hp
    obtain ⟨i, hi, rfl⟩ := hp
    have : i ∈ argsortDesc sims := List.mem_of_mem_take hi
    exact ⟨hslen ▸ argsortDesc_mem this, rfl⟩
  · intro hNk
    rw [hlen]
    exact Nat.min_eq_right hNk

/-- Witness for C1 at a concrete two-row index. -/
theorem topk_length_and_order_witness :
    1 ≤ 3
    ∧ ((ActorIndex.topkCore [[(1:ℝ)], [2]] [1] 3).length = min 3 [[(1:ℝ)], [2]].length
      ∧ List.Pairwise (fun p p' : Nat × ℝ => p'.2 ≤ p.2)
          (ActorIndex.topkCore [[(1:ℝ)], [2]] [1] 3)
      ∧ (∀ p ∈ ActorIndex.topkCore [[(1:ℝ)], [2]] [1] 3,
          p.1 < [[(1:ℝ)], [2]].length
          ∧ p.2 = ([[(1:ℝ)], [2]].map (fun row => dot row (normalizeVec [1]))).getD p.1 0)
      ∧ ([[(1:ℝ)], [2]].length ≤ 3 →
          (ActorIndex.topkCore [[(1:ℝ)], [2]] [1] 3).length = [[(1:ℝ)], [2]].length)) :=
  ⟨by norm_num, topk_length_and_order [[1], [2]] [1] 3 (by norm_num)⟩

noncomputable section

/-- With an unloaded state and a missing artifact, `ensure_loaded` raises the
index-not-built error and leaves the state untouched. -/
lemma ensure_loaded_missing {d : Disk} {s : ActorIndexState}
    (hs : s.loaded = false) (h : d.emb = none ∨ d.meta = none) :
    ensure_loaded d s = (s, some .indexNotBuilt) := by
  rcases h with h | h <;> simp [ensure_loaded, hs, h]

/-- With an unloaded state and mismatched artifacts, `ensure_loaded` raises
the corrupt-index error after having assigned the fields but not the flag. -/
lemma ensure_loaded_corrupt {d : Disk} {s : ActorIndexState}
    {e : List (List ℝ)} {m : List MetaEntry}
    (hs : s.loaded = false) (he : d.emb = some e) (hm : d.meta = some m)
    (hlen : m.length ≠ e.length) :
    ensure_loaded d s = (⟨false, some (e.map normalizeVec), some m⟩, some .corruptIndex) := by
  simp [ensure_loaded, hs, he, hm, hlen]

/-- With an unloaded state and consistent artifacts, `ensure_loaded` loads
the renormalized matrix and sets the flag. -/
lemma ensure_loaded_ok {d : Disk} {s : ActorIndexState}
    {e : List (List ℝ)} {m : List MetaEntry}
    (hs : s.loaded = false) (he : d.emb = some e) (hm : d.meta = some m)
    (hlen : m.length = e.length) :
    ensure_loaded d s = (⟨true, some (e.map normalizeVec), some m⟩, none) := by
  simp [ensure_loaded, hs, he, hm, hlen]

/-- A loaded state is reused as is. -/
lemma ensure_loaded_cached {d : Disk} {s : ActorIndexState} (hs : s.loaded = true) :
    ensure_loaded d s = (s, none) := by
  simp [ensure_loaded, hs]

end

/-- C2: if either persisted artifact is missing, the first query attempt
fails with the distinguishable index-not-built error (it is an error, never
an empty success), and `match_actors` maps exactly this error to HTTP 503 —
the other load error, corrupt-index, is mapped to 500 instead. -/
theorem missing_artifacts_fail_503 (d : Disk) (f : Upload) (q : List ℝ) (k : Nat)
    (hmiss : d.emb = none ∨ d.meta = none)
    (hct : badContentType f.contentType = false)
    (hsz : f.size ≤ maxUploadBytes)
    (hq : f.embOutcome = some q) :
    (ActorIndex.topk d .init q k).2 = .error .indexNotBuilt
    ∧ (match_actors d .init f k).2 = .httpError 503
    ∧ (∀ res, (match_actors d .init f k).2 ≠ .ok res)
    ∧ (∀ d₂ : Disk, ∀ (e : List (List ℝ)) (m : List MetaEntry),
        d₂.emb = some e → d₂.meta = some m → m.length ≠ e.length →
        (match_actors d₂ .init f k).2 = .httpError 500) := by
  have hload := ensure_loaded_missing (d := d) (s := .init) rfl hmiss
  have htop : ActorIndex.topk d .init q k = (ActorIndexState.init, .error .indexNotBuilt) := by
    simp [ActorIndex.topk, hload]
  have hma : (match_actors d .init f k).2 = .httpError 503 := by
    simp [match_actors, hct, Nat.not_lt.mpr hsz, hq, htop]
  refine ⟨by simp [htop], hma, ?_, ?_⟩
  · intro res hres
    rw [hma] at hres
    exact HandlerResponse.noConfusion hres
  · intro d₂ e m he hm hlen
    have hload₂ := ensure_loaded_corrupt (d := d₂) (s := .init) rfl he hm hlen
    have htop₂ : ActorIndex.topk d₂ .init q k
        = (⟨false, some (e.map normalizeVec), some m⟩, .error .corruptIndex) := by
      simp [ActorIndex.topk, hload₂]
    simp [match_actors, hct, Nat.not_lt.mpr hsz, hq, htop₂]

/-- Witness for C2: empty disk, valid small PNG upload. -/
theorem missing_artifacts_fail_503_witness :
    ((⟨none, none⟩ : Disk).emb = none ∨ (⟨none, none⟩ : Disk).meta = none)
    ∧ badContentType (Upload.mk "a.png" (some "image/png") 4 (some [1])).contentType = false
    ∧ (Upload.mk "a.png" (some "image/png") 4 (some [1])).size ≤ maxUploadBytes
    ∧ (ActorIndex.topk ⟨none, none⟩ .init [1] 3).2 = .error .indexNotBuilt
    ∧ (match_actors ⟨none, none⟩ .init (Upload.mk "a.png" (some "image/png") 4 (some [1])) 3).2
        = .httpError 503 := by
  have h := missing_artifacts_fail_503 ⟨none, none⟩
    (Upload.mk "a.png" (some "image/png") 4 (some [1])) [1] 3
    (Or.inl rfl) (by decide) (by decide) rfl
  exact ⟨Or.inl rfl, by decide, by decide, h.1, h.2.1⟩

/-- C3: loading an index whose metadata length differs from the matrix row
count fails with the corrupt-index error and never partially succeeds: the
`_loaded` flag stays `false`, so a subsequent query attempt against the same
disk state runs the load again and fails with the same error instead of
serving from the half-assigned fields. -/
theorem corrupt_index_load_fails (d : Disk) (s : ActorIndexState)
    (e : List (List ℝ)) (m : List MetaEntry) (q : List ℝ) (k : Nat)
    (hs : s.loaded = false) (he : d.emb = some e) (hm : d.meta = some m)
    (hlen : m.length ≠ e.length) :
    ∃ s', ensure_loaded d s = (s', some .corruptIndex)
      ∧ s'.loaded = false
      ∧ (ActorIndex.topk d s' q k).2 = .error .corruptIndex := by
  refine ⟨⟨false, some (e.map normalizeVec), some m⟩,
    ensure_loaded_corrupt hs he hm hlen, rfl, ?_⟩
  have h2 := ensure_loaded_corrupt (d := d)
    (s := ⟨false, some (e.map normalizeVec), some m⟩) rfl he hm hlen
  simp [ActorIndex.topk, h2]

/-- Witness for C3: a one-row matrix against a two-entry metadata list. -/
theorem corrupt_index_load_fails_witness :
    (ActorIndexState.init.loaded = false)
    ∧ ([⟨some "a", none, none⟩, ⟨some "b", none, none⟩] : List MetaEntry).length
        ≠ [[(1:ℝ)]].length
    ∧ ∃ s', ensure_loaded ⟨some [[(1:ℝ)]], some [⟨some "a", none, none⟩, ⟨some "b", none, none⟩]⟩
              ActorIndexState.init = (s', some .corruptIndex)
        ∧ s'.loaded = false
        ∧ (ActorIndex.topk ⟨some [[(1:ℝ)]], some [⟨some "a", none, none⟩, ⟨some "b", none, none⟩]⟩
            s' [1] 3).2 = .error .corruptIndex :=
  ⟨rfl, by decide,
    corrupt_index_load_fails ⟨some [[(1:ℝ)]], some [⟨some "a", none, none⟩, ⟨some "b", none, none⟩]⟩
      .init [[(1:ℝ)]] [⟨some "a", none, none⟩, ⟨some "b", none, none⟩] [1] 3
      rfl rfl rfl (by decide)⟩

/-- C10: a failed load is never cached.  Whenever `ensure_loaded` raises from
an unloaded state, the resulting state still has `loaded = false`; a `topk`
call on that state against the same disk re-attempts the load and fails with
the same error, and one against a later-repaired disk succeeds with the
freshly loaded matrix, without any restart. -/
theorem failed_load_never_cached (d : Disk) (s s' : ActorIndexState) (err : LoadError)
    (hs : s.loaded = false) (h : ensure_loaded d s = (s', some err)) :
    s'.loaded = false
    ∧ (∀ q k, (ActorIndex.topk d s' q k).2 = .error err)
    ∧ (∀ d₂ : Disk, ∀ (e : List (List ℝ)) (m : List MetaEntry), ∀ q k,
        d₂.emb = some e → d₂.meta = some m → m.length = e.length →
        (ActorIndex.topk d₂ s' q k).2
          = .ok (ActorIndex.topkCore (e.map normalizeVec) q k)) := by
  have main : s'.loaded = false ∧ ∀ q k, (ActorIndex.topk d s' q k).2 = .error err := by
    rcases hde : d.emb with _ | e
    · have h1 := ensure_loaded_missing (d := d) (s := s) hs (Or.inl hde)
      rw [h1] at h
      obtain ⟨rfl, rfl⟩ : s = s' ∧ LoadError.indexNotBuilt = err := by
        constructor <;> [exact congrArg Prod.fst h; exact Option.some.inj (congrArg Prod.snd h)]
      exact ⟨hs, fun q k => by simp [ActorIndex.topk, h1]⟩
    · rcases hdm : d.meta with _ | m
      · have h1 := ensure_loaded_missing (d := d) (s := s) hs (Or.inr hdm)
        rw [h1] at h
        obtain ⟨rfl, rfl⟩ : s = s' ∧ LoadError.indexNotBuilt = err := by
          constructor <;> [exact congrArg Prod.fst h; exact Option.some.inj (congrArg Prod.snd h)]
        exact ⟨hs, fun q k => by simp [ActorIndex.topk, h1]⟩
      · by_cases hlen : m.length = e.length
        · rw [ensure_loaded_ok hs hde hdm hlen] at h
          exact absurd (congrArg Prod.snd h) (by simp)
        · have h1 := ensure_loaded_corrupt hs hde hdm hlen
          rw [h1] at h
          obtain ⟨hse, rfl⟩ :
              (⟨false, some (e.map normalizeVec), some m⟩ : ActorIndexState) = s'
                ∧ LoadError.corruptIndex = err := by
            constructor <;> [exact congrArg Prod.fst h; exact Option.some.inj (congrArg Prod.snd h)]
          subst hse
          refine ⟨rfl, fun q k => ?_⟩
          have h2 := ensure_loaded_corrupt (d := d)
            (s := ⟨false, some (e.map normalizeVec), some m⟩) rfl hde hdm hlen
          simp [ActorIndex.topk, h2]
  refine ⟨main.1, main.2, ?_⟩
  intro d₂ e m q k he hm hlen
  have h2 := ensure_loaded_ok (d := d₂) (s := s') main.1 he hm hlen
  simp [ActorIndex.topk, h2]

/-- Witness for C10: a load against an empty disk fails, and the same state
then loads successfully from a repaired disk. -/
theorem failed_load_never_cached_witness :
    (ActorIndexState.init.loaded = false)
    ∧ ensure_loaded ⟨none, none⟩ ActorIndexState.init
        = (ActorIndexState.init, some .indexNotBuilt)
    ∧ (ActorIndexState.init.loaded = false
      ∧ (∀ q k, (ActorIndex.topk ⟨none, none⟩ ActorIndexState.init q k).2
            = .error .indexNotBuilt)
      ∧ (∀ d₂ : Disk, ∀ (e : List (List ℝ)) (m : List MetaEntry), ∀ q k,
          d₂.emb = some e → d₂.meta = some m → m.length = e.length →
          (ActorIndex.topk d₂ ActorIndexState.init q k).2
            = .ok (ActorIndex.topkCore (e.map normalizeVec) q k))) := by
  have h1 : ensure_loaded ⟨none, none⟩ ActorIndexState.init
      = (ActorIndexState.init, some .indexNotBuilt) :=
    ensure_loaded_missing rfl (Or.inl rfl)
  exact ⟨rfl, h1, failed_load_never_cached ⟨none, none⟩ .init .init .indexNotBuilt rfl h1⟩

/-- Counterexample to C7 as stated: an 10 MiB + 1 byte upload with a valid
image content type is answered with HTTP 413, not 400 — `main.py` line 42
raises `HTTPException(status_code=413, ...)`. -/
theorem oversized_upload_not_400 :
    (match_actors ⟨none, none⟩ .init
        (Upload.mk "big.png" (some "image/png") (maxUploadBytes + 1) (some [1])) 3).2
      = .httpError 413
    ∧ (HandlerResponse.httpError 413 ≠ HandlerResponse.httpError 400) := by
  constructor
  · have hct : badContentType (some "image/png") = false := by decide
    simp [match_actors, hct, maxUploadBytes]
  · intro h
    have := HandlerResponse.httpError.inj h
    omega

/-- C7 as amended: `POST /match-actors` rejects an upload whose payload
exceeds 10 MiB (given it passed the content-type check, which runs first),
and the response status for an oversized upload is 413. -/
theorem oversized_upload_rejected_413 (d : Disk) (s : ActorIndexState)
    (f : Upload) (k : Nat)
    (hct : badContentType f.contentType = false)
    (hsz : maxUploadBytes < f.size) :
    match_actors d s f k = (s, .httpError 413) := by
  simp [match_actors, hct, hsz]

/-- Witness for amended C7. -/
theorem oversized_upload_rejected_413_witness :
    badContentType (Upload.mk "big.png" (some "image/png") (maxUploadBytes + 1)
        (some [1])).contentType = false
    ∧ maxUploadBytes < (Upload.mk "big.png" (some "image/png") (maxUploadBytes + 1)
        (some [1])).size
    ∧ match_actors ⟨none, none⟩ .init
        (Upload.mk "big.png" (some "image/png") (maxUploadBytes + 1) (some [1])) 3
      = (ActorIndexState.init, .httpError 413) :=
  ⟨by decide, by decide,
    oversized_upload_rejected_413 ⟨none, none⟩ .init
      (Upload.mk "big.png" (some "image/png") (maxUploadBytes + 1) (some [1])) 3
      (by decide) (by decide)⟩

/-- Counterexample to C8 as stated: supplying both `--dataset-dir` and
`--csv` does not fail — `main` checks `args.dataset_dir` first and silently
ignores `--csv` (`build_actor_index.py`, lines 124-129). -/
theorem both_modes_selects_dataset :
    select_input_mode (some "ds") (some "t.csv") = .dataset "ds"
    ∧ select_input_mode (some "ds") (some "t.csv") ≠ .usageExit := by
  constructor
  · decide
  · decide

/-- C8 as amended: the builder CLI fails fast with a usage error when
neither `--dataset-dir` nor `--csv` is supplied; with exactly one it selects
that mode; when both are supplied it does not fail but silently prefers
dataset-directory mode. -/
theorem input_mode_selection (dir csvPath : String)
    (hd : dir.isEmpty = false) (hc : csvPath.isEmpty = false) :
    select_input_mode none none = .usageExit
    ∧ select_input_mode (some dir) none = .dataset dir
    ∧ select_input_mode none (some csvPath) = .table csvPath
    ∧ select_input_mode (some dir) (some csvPath) = .dataset dir := by
  refine ⟨rfl, ?_, ?_, ?_⟩ <;> simp [select_input_mode, argTruthy, hd, hc]

/-- Witness for amended C8. -/
theorem input_mode_selection_witness :
    "ds".isEmpty = false
    ∧ "t.csv".isEmpty = false
    ∧ (select_input_mode none none = .usageExit
      ∧ select_input_mode (some "ds") none = .dataset "ds"
      ∧ select_input_mode none (some "t.csv") = .table "t.csv"
      ∧ select_input_mode (some "ds") (some "t.csv") = .dataset "ds") :=
  ⟨rfl, rfl, input_mode_selection "ds" "t.csv" rfl rfl⟩

noncomputable section

/-- The index state after a successful load of disk `d`. -/
def loadedState (d : Disk) : ActorIndexState :=
  ⟨true, some ((d.emb.getD []).map normalizeVec), some (d.meta.getD [])⟩

/-- The batch entry a given file receives once the index is loadable:
validation failures and processing failures become `error` entries, a
processed file gets its `results` list. -/
def expectedBatchItem (d : Disk) (k : Nat) (f : Upload) : BatchItem :=
  if badContentType f.contentType then ⟨f.filename, .failure "이미지 아님"⟩
  else if maxUploadBytes < f.size then ⟨f.filename, .failure "파일이 너무 큼(>10MB)"⟩
  else
    match f.embOutcome with
    | none => ⟨f.filename, .failure "처리 실패"⟩
    | some q =>
      ⟨f.filename, .results (buildResults (loadedState d)
        (ActorIndex.topkCore ((d.emb.getD []).map normalizeVec) q k))⟩

/-- A file that passes both upload validations and whose bytes embed
successfully. -/
def passesPreCheck (f : Upload) : Prop :=
  badContentType f.contentType = false ∧ f.size ≤ maxUploadBytes ∧ f.embOutcome ≠ none

end

/-- A batch entry keeps its file's name. -/
lemma expectedBatchItem_filename (d : Disk) (k : Nat) (f : Upload) :
    (expectedBatchItem d k f).filename = f.filename := by
  rcases hfe : f.embOutcome with _ | q <;>
    by_cases h1 : badContentType f.contentType <;>
    by_cases h2 : maxUploadBytes < f.size <;>
    simp [expectedBatchItem, h1, h2, hfe]

/-- A batch entry is an `error` entry exactly for the files that fail a
validation or whose processing raises. -/
lemma expectedBatchItem_isFailure (d : Disk) (k : Nat) (f : Upload) :
    (expectedBatchItem d k f).payload.isFailure = true ↔ ¬ passesPreCheck f := by
  rcases hfe : f.embOutcome with _ | q <;>
    by_cases h1 : badContentType f.contentType <;>
    by_cases h2 : maxUploadBytes < f.size <;>
    simp [expectedBatchItem, h1, h2, hfe, passesPreCheck, BatchPayload.isFailure,
      Nat.not_lt, le_of_not_lt, Nat.lt_iff_add_one_le]

/-- Once the index is loaded, processing a file never aborts and yields its
expected entry without touching the state. -/
lemma processFile_loaded (d : Disk) (f : Upload) (k : Nat) :
    processFile d (loadedState d) f k = (loadedState d, .item (expectedBatchItem d k f)) := by
  have hl := ensure_loaded_cached (d := d) (s := loadedState d) rfl
  have htop : ∀ q, ActorIndex.topk d (loadedState d) q k
      = (loadedState d, .ok (ActorIndex.topkCore ((d.emb.getD []).map normalizeVec) q k)) := by
    intro q
    simp only [ActorIndex.topk, hl]
    rfl
  rcases hfe : f.embOutcome with _ | q <;>
    by_cases h1 : badContentType f.contentType <;>
    by_cases h2 : maxUploadBytes < f.size <;>
    simp [processFile, expectedBatchItem, h1, h2, hfe, htop]

/-- The batch loop from a loaded state maps every file to its expected
entry. -/
lemma batchLoop_loaded (d : Disk) (k : Nat) : ∀ files : List Upload,
    batchLoop d k (loadedState d) files
      = (loadedState d, .ok (files.map (expectedBatchItem d k))) := by
  intro files
  induction files with
  | nil => simp [batchLoop]
  | cons f rest ih => simp [batchLoop, processFile_loaded, ih]

/-- An invalid file is answered from any state without touching it. -/
lemma processFile_invalid (d : Disk) (s : ActorIndexState) (f : Upload) (k : Nat)
    (h : ¬ passesPreCheck f) :
    processFile d s f k = (s, .item (expectedBatchItem d k f)) := by
  rcases hfe : f.embOutcome with _ | q <;>
    by_cases h1 : badContentType f.contentType <;>
    by_cases h2 : maxUploadBytes < f.size <;>
    simp [processFile, expectedBatchItem, h1, h2, hfe] <;>
    exact absurd ⟨by simp [h1], Nat.le_of_not_lt h2, by simp [hfe]⟩ h

/-- The batch loop from the initial state over a loadable disk produces one
expected entry per file. -/
lemma batchLoop_init (d : Disk) (e : List (List ℝ)) (m : List MetaEntry) (k : Nat)
    (he : d.emb = some e) (hm : d.meta = some m) (hlen : m.length = e.length) :
    ∀ files : List Upload, ∃ s',
      batchLoop d k .init files = (s', .ok (files.map (expectedBatchItem d k))) := by
  have hloadOk : ensure_loaded d .init = (loadedState d, none) := by
    have := ensure_loaded_ok (d := d) (s := .init) rfl he hm hlen
    simpa [loadedState, he, hm] using this
  intro files
  induction files with
  | nil => exact ⟨.init, by simp [batchLoop]⟩
  | cons f rest ih =>
    by_cases hf : passesPreCheck f
    · obtain ⟨h1, h2, h3⟩ := hf
      rcases hfe : f.embOutcome with _ | q
      · exact absurd hfe h3
      · refine ⟨loadedState d, ?_⟩
        have hpf : processFile d .init f k
            = (loadedState d, .item (expectedBatchItem d k f)) := by
          simp [processFile, expectedBatchItem, h1, Nat.not_lt.mpr h2, hfe,
            ActorIndex.topk, hloadOk, loadedState]
        simp [batchLoop, hpf, batchLoop_loaded]
    · obtain ⟨s', hs'⟩ := ih
      exact ⟨s', by simp [batchLoop, processFile_invalid d .init f k hf, hs']⟩

/-- With a missing artifact, the first file that reaches the query aborts
the whole batch with a 503. -/
lemma batchLoop_abort (d : Disk) (k : Nat) (hmiss : d.emb = none ∨ d.meta = none) :
    ∀ files : List Upload, (∃ f ∈ files, passesPreCheck f) →
      ∃ s', batchLoop d k .init files = (s', .httpError 503) := by
  have hload := ensure_loaded_missing (d := d) (s := .init) rfl hmiss
  intro files
  induction files with
  | nil => rintro ⟨f, hf, -⟩; exact absurd hf (List.not_mem_nil f)
  | cons f rest ih =>
    rintro ⟨f₀, hf₀, hp₀⟩
    by_cases hf : passesPreCheck f
    · obtain ⟨h1, h2, h3⟩ := hf
      rcases hfe : f.embOutcome with _ | q
      · exact absurd hfe h3
      · refine ⟨.init, ?_⟩
        have hpf : processFile d .init f k = (.init, .abort 503) := by
          simp [processFile, h1, Nat.not_lt.mpr h2, hfe, ActorIndex.topk, hload]
        simp [batchLoop, hpf]
    · have hf₀r : f₀ ∈ rest := by
        rcases List.mem_cons.mp hf₀ with rfl | hr
        · exact absurd hp₀ hf
        · exact hr
      obtain ⟨s', hs'⟩ := ih ⟨f₀, hf₀r, hp₀⟩
      exact ⟨s', by simp [batchLoop, processFile_invalid d .init f k hf, hs']⟩

/-- C4: in the batch endpoint, every per-file failure (bad content type,
oversized payload, embedding/processing error) is captured as an `error`
entry for that file, so with a loadable index the response has exactly one
item per uploaded file, an entry being an error exactly when its file fails;
whereas if the index artifacts are missing, any file reaching the query
aborts the entire request with HTTP 503. -/
theorem batch_isolates_per_file_errors (d : Disk) (files : List Upload) (k : Nat)
    (hne : files ≠ []) :
    (∀ (e : List (List ℝ)) (m : List MetaEntry),
      d.emb = some e → d.meta = some m → m.length = e.length →
      ∃ s', match_actors_batch d .init files k
              = (s', .ok (files.map (expectedBatchItem d k)))
        ∧ (files.map (expectedBatchItem d k)).length = files.length
        ∧ (∀ f ∈ files, (expectedBatchItem d k f).filename = f.filename
            ∧ ((expectedBatchItem d k f).payload.isFailure = true ↔ ¬ passesPreCheck f)))
    ∧ ((d.emb = none ∨ d.meta = none) →
        (∃ f ∈ files, passesPreCheck f) →
        ∃ s', match_actors_batch d .init files k = (s', .httpError 503)) := by
  have hnemp : files.isEmpty = false := by
    cases files with
    | nil => exact absurd rfl hne
    | cons f rest => rfl
  constructor
  · intro e m he hm hlen
    obtain ⟨s', hs'⟩ := batchLoop_init d e m k he hm hlen files
    exact ⟨s', by simpa [match_actors_batch, hnemp] using hs', by simp,
      fun f _ => ⟨expectedBatchItem_filename d k f, expectedBatchItem_isFailure d k f⟩⟩
  · intro hmiss hex
    obtain ⟨s', hs'⟩ := batchLoop_abort d k hmiss files hex
    exact ⟨s', by simpa [match_actors_batch, hnemp] using hs'⟩

/-- Witness for C4: three files where only the second raises during
embedding give three items with exactly the middle one an error; one valid
file against a missing index aborts with 503. -/
theorem batch_isolates_per_file_errors_witness :
    (∃ s', match_actors_batch ⟨some [[1]], some [⟨some "a", none, none⟩]⟩ .init
            [Upload.mk "1.png" (some "image/png") 4 (some [1]),
             Upload.mk "2.png" (some "image/png") 4 none,
             Upload.mk "3.png" (some "image/png") 4 (some [1])] 3
          = (s', .ok ([Upload.mk "1.png" (some "image/png") 4 (some [1]),
             Upload.mk "2.png" (some "image/png") 4 none,
             Upload.mk "3.png" (some "image/png") 4 (some [1])].map
              (expectedBatchItem ⟨some [[1]], some [⟨some "a", none, none⟩]⟩ 3))))
    ∧ ([Upload.mk "1.png" (some "image/png") 4 (some [1]),
        Upload.mk "2.png" (some "image/png") 4 none,
        Upload.mk "3.png" (some "image/png") 4 (some [1])].map
          (expectedBatchItem ⟨some [[1]], some [⟨some "a", none, none⟩]⟩ 3)).length = 3
    ∧ ((expectedBatchItem ⟨some [[1]], some [⟨some "a", none, none⟩]⟩ 3
          (Upload.mk "2.png" (some "image/png") 4 none)).payload.isFailure = true)
    ∧ ((expectedBatchItem ⟨some [[1]], some [⟨some "a", none, none⟩]⟩ 3
          (Upload.mk "1.png" (some "image/png") 4 (some [1]))).payload.isFailure = false)
    ∧ (∃ s', match_actors_batch ⟨none, none⟩ .init
          [Upload.mk "1.png" (some "image/png") 4 (some [1])] 3
          = (s', .httpError 503)) := by
  have h := batch_isolates_per_file_errors ⟨some [[1]], some [⟨some "a", none, none⟩]⟩
    [Upload.mk "1.png" (some "image/png") 4 (some [1]),
     Upload.mk "2.png" (some "image/png") 4 none,
     Upload.mk "3.png" (some "image/png") 4 (some [1])] 3 (by simp)
  have habort := batch_isolates_per_file_errors ⟨none, none⟩
    [Upload.mk "1.png" (some "image/png") 4 (some [1])] 3 (by simp)
  obtain ⟨s', hs', hlen, hchar⟩ := h.1 [[1]] [⟨some "a", none, none⟩] rfl rfl rfl
  refine ⟨⟨s', hs'⟩, hlen, ?_, ?_, ?_⟩
  · exact (hchar (Upload.mk "2.png" (some "image/png") 4 none) (by simp)).2.mpr (by
      intro hp
      exact hp.2.2 rfl)
  · have hiff := (hchar (Upload.mk "1.png" (some "image/png") 4 (some [1]))
      (by simp)).2
    have hpass : passesPreCheck (Upload.mk "1.png" (some "image/png") 4 (some [1])) :=
      ⟨by decide, by decide, by simp⟩
    rcases hb : (expectedBatchItem ⟨some [[1]], some [⟨some "a", none, none⟩]⟩ 3
        (Upload.mk "1.png" (some "image/png") 4 (some [1]))).payload.isFailure
    · rfl
    · exact absurd hpass (hiff.mp hb)
  · exact habort.2 (Or.inl rfl)
      ⟨Upload.mk "1.png" (some "image/png") 4 (some [1]), by simp,
        by decide, by decide, by simp⟩

/-- The per-image loop accumulates exactly the successful embeddings of the
images it visits, in order, skipping failures. -/
lemma foldl_scanStep_embs (entity : String) :
    ∀ (l : List Img) (acc : ScanAcc),
      (l.foldl (scanStep entity) acc).embs = acc.embs ++ l.filterMap Img.embOutcome := by
  intro l
  induction l with
  | nil => intro acc; simp
  | cons img t ih =>
    intro acc
    rcases hfe : img.embOutcome with _ | e <;>
      simp [List.foldl_cons, scanStep, hfe, ih, List.append_assoc]

/-- The entity scan collects the successful embeddings of the first 20
images. -/
lemma scanEntity_embs (entity : String) (imgs : List Img) :
    (scanEntity entity imgs).embs = (imgs.take 20).filterMap Img.embOutcome := by
  simp [scanEntity, foldl_scanStep_embs]

/-- With the default single-cluster setting, an entity contributes nothing
when no image embeds, and otherwise exactly the renormalized mean of its
successful embeddings. -/
lemma entityRows_single (km : Nat → List (List ℝ) → Option (List Nat))
    (n : String) (imgs : List Img) :
    entityRows km 1 n imgs
      = if ((imgs.take 20).filterMap Img.embOutcome).isEmpty then []
        else [(normalizeVec (meanVec ((imgs.take 20).filterMap Img.embOutcome)),
               (⟨some n, (scanEntity n imgs).rep, none⟩ : MetaEntry))] := by
  by_cases him : imgs.isEmpty
  · have : imgs = [] := List.isEmpty_iff.mp him
    subst this
    simp [entityRows]
  · simp only [entityRows, him, if_false, scanEntity_embs]
    have hcl : ¬(1 < 1 ∧ 1 ≤ ((imgs.take 20).filterMap Img.embOutcome).length) := by
      rintro ⟨h1, -⟩
      exact absurd h1 (lt_irrefl 1)
    by_cases hemp : ((imgs.take 20).filterMap Img.embOutcome).isEmpty <;>
      simp [hemp, hcl]

/-- Flattening the per-entity contributions over the sorted groups keeps
exactly the entities with at least one successful embedding. -/
lemma flatMap_entityRows_one (km : Nat → List (List ℝ) → Option (List Nat)) :
    ∀ gs : List (String × List Img),
      gs.flatMap (fun g => entityRows km 1 g.1 g.2)
        = (gs.filter (fun g => !(succEmbs g).isEmpty)).map
            (fun g => (normalizeVec (meanVec (succEmbs g)),
              (⟨some g.1, (scanEntity g.1 g.2).rep, none⟩ : MetaEntry))) := by
  intro gs
  simp only [succEmbs]
  induction gs with
  | nil => simp
  | cons g t ih =>
    rw [List.flatMap_cons, entityRows_single, List.filter_cons]
    rcases hemp : ((g.2.take 20).filterMap Img.embOutcome).isEmpty with _ | _
    · rw [if_neg (by simp [hemp]), if_pos (by simp [hemp]), List.map_cons, ih]
      simp
    · rw [if_pos (by simp [hemp]), if_neg (by simp [hemp]), ih]
      simp

/-- With the default single-cluster setting, `compute_actor_vectors` is
exactly: sort by name, keep the entities with a successful embedding, emit
the renormalized mean per entity with its parallel metadata entry. -/
lemma compute_actor_vectors_one (km : Nat → List (List ℝ) → Option (List Nat))
    (groups : List (String × List Img)) :
    compute_actor_vectors km groups 1
      = (((sortGroups groups).filter (fun g => !(succEmbs g).isEmpty)).map
           (fun g => normalizeVec (meanVec (succEmbs g))),
         ((sortGroups groups).filter (fun g => !(succEmbs g).isEmpty)).map
           (fun g => (⟨some g.1, (scanEntity g.1 g.2).rep, none⟩ : MetaEntry))) := by
  simp [compute_actor_vectors, flatMap_entityRows_one, List.map_map, Function.comp]

/-- C5: for every entity the builder samples at most the first 20 images in
enumeration order (the scan visits `imgs.take 20` and collects at most 20
embeddings), skips every image whose embedding fails without aborting the
entity, drops an entity entirely exactly when zero images succeed, and by
default emits one vector per surviving entity: the arithmetic mean of the
successful embeddings renormalized with the ε-guarded formula
`v / (||v|| + ε)`. -/
theorem builder_mean_aggregation (km : Nat → List (List ℝ) → Option (List Nat))
    (groups : List (String × List Img)) (entity : String) (imgs : List Img) :
    (scanEntity entity imgs).embs = (imgs.take 20).filterMap Img.embOutcome
    ∧ (scanEntity entity imgs).embs.length ≤ 20
    ∧ (∀ e ∈ (scanEntity entity imgs).embs,
        ∃ img ∈ imgs.take 20, img.embOutcome = some e)
    ∧ (compute_actor_vectors km groups 1).1
        = ((sortGroups groups).filter (fun g => !(succEmbs g).isEmpty)).map
            (fun g => normalizeVec (meanVec (succEmbs g))) := by
  refine ⟨scanEntity_embs entity imgs, ?_, ?_, ?_⟩
  · rw [scanEntity_embs]
    calc ((imgs.take 20).filterMap Img.embOutcome).length
        ≤ (imgs.take 20).length := List.length_filterMap_le _ _
      _ ≤ 20 := by simp [List.length_take]
  · intro e he
    rw [scanEntity_embs] at he
    obtain ⟨img, himg, hsome⟩ := List.mem_filterMap.mp he
    exact ⟨img, himg, hsome⟩
  · rw [compute_actor_vectors_one]

/-- A dot product of a vector with itself is a sum of squares. -/
lemma dot_self_nonneg (v : List ℝ) : 0 ≤ dot v v := by
  induction v with
  | nil => simp [dot]
  | cons x t ih =>
    have h : dot (x :: t) (x :: t) = x * x + dot t t := rfl
    rw [h]
    exact add_nonneg (mul_self_nonneg x) ih

/-- Scaling every coordinate by `1 / c` scales the self dot product by
`1 / c²`. -/
lemma dot_map_div_self (v : List ℝ) (c : ℝ) :
    dot (v.map (fun x => x / c)) (v.map (fun x => x / c)) = dot v v / (c * c) := by
  induction v with
  | nil => simp [dot]
  | cons x t ih =>
    show x / c * (x / c) + dot (t.map (fun x => x / c)) (t.map (fun x => x / c))
        = (x * x + dot t t) / (c * c)
    rw [ih, div_mul_div_comm, div_add_div_same]

/-- The Euclidean norm is nonnegative. -/
lemma norm2_nonneg (v : List ℝ) : 0 ≤ norm2 v := Real.sqrt_nonneg _

/-- The guard constant is positive. -/
lemma eps_pos : (0:ℝ) < eps := by norm_num [eps]

/-- Dividing every coordinate by a nonnegative `c` divides the norm by `c`. -/
lemma norm2_map_div (v : List ℝ) (c : ℝ) (hc : 0 ≤ c) :
    norm2 (v.map (fun x => x / c)) = norm2 v / c := by
  unfold norm2
  rw [dot_map_div_self, Real.sqrt_div (dot_self_nonneg v), Real.sqrt_mul_self hc]

/-- The norm after the ε-guarded normalization. -/
lemma norm2_normalizeVec (v : List ℝ) :
    norm2 (normalizeVec v) = norm2 v / (norm2 v + eps) := by
  unfold normalizeVec
  exact norm2_map_div v _ (add_nonneg (norm2_nonneg v) eps_pos.le)

/-- A builder row coming from a mean of norm at least `10⁻⁶`, renormalized
when persisted and renormalized again at load time, has norm within `10⁻⁵`
of 1. -/
lemma normalized_load_close (v : List ℝ) (h : (1:ℝ)/1000000 ≤ norm2 v) :
    |norm2 (normalizeVec (normalizeVec v)) - 1| ≤ 1/100000 := by
  have he : (0:ℝ) < eps := eps_pos
  set n := norm2 v with hn'
  have hpos : 0 < n := lt_of_lt_of_le (by norm_num) h
  have h1 : norm2 (normalizeVec v) = n / (n + eps) := norm2_normalizeVec v
  have h2 : norm2 (normalizeVec (normalizeVec v)) = (n/(n+eps)) / ((n/(n+eps)) + eps) := by
    rw [norm2_normalizeVec, h1]
  set n1 := n / (n + eps) with hn1
  have hne : 0 < n + eps := by linarith
  have hn1pos : 0 < n1 := div_pos hpos hne
  have hn1half : 1/2 ≤ n1 := by
    rw [hn1, le_div_iff hne]
    have heps_le : eps ≤ n := le_trans (by norm_num [eps]) h
    linarith
  have hn1e : 0 < n1 + eps := by linarith
  have hle1 : norm2 (normalizeVec (normalizeVec v)) ≤ 1 := by
    rw [h2]
    exact div_le_one_of_le (by linarith) hn1e.le
  have hge : 1 - 2*eps ≤ norm2 (normalizeVec (normalizeVec v)) := by
    rw [h2, le_div_iff hn1e]
    nlinarith [hn1half, he.le, sq_nonneg eps]
  have heb : (2:ℝ)*eps ≤ 1/100000 := by norm_num [eps]
  rw [abs_le]
  constructor
  · linarith
  · linarith

/-- `sorted(groups.items())` lists the groups in non-decreasing name
order. -/
lemma sortGroups_sorted (groups : List (String × List Img)) :
    List.Pairwise (fun a b : String × List Img => a.1 ≤ b.1) (sortGroups groups) := by
  haveI : IsTotal (String × List Img) (fun a b => a.1 ≤ b.1) :=
    ⟨fun a b => le_total _ _⟩
  haveI : IsTrans (String × List Img) (fun a b => a.1 ≤ b.1) :=
    ⟨fun a b c hab hbc => le_trans hab hbc⟩
  exact List.sorted_insertionSort _ _

/-- C6: the default builder output satisfies the Index invariant.  The
matrix and the metadata list are the same name-sorted entity list mapped
through two parallel functions (so the row count equals the metadata length
and entry `i` names the entity of row `i`), the metadata names are in
non-decreasing order, and — provided each surviving entity's mean embedding
has norm at least `10⁻⁶`, as any nondegenerate mean of unit embeddings
does — every persisted row has, after the serving process's ε-guarded load
renormalization, L2 norm equal to 1 within `10⁻⁵`. -/
theorem builder_output_index_invariant (km : Nat → List (List ℝ) → Option (List Nat))
    (groups : List (String × List Img))
    (h : ∀ g ∈ (sortGroups groups).filter (fun g => !(succEmbs g).isEmpty),
          (1:ℝ)/1000000 ≤ norm2 (meanVec (succEmbs g))) :
    (compute_actor_vectors km groups 1).1.length
        = (compute_actor_vectors km groups 1).2.length
    ∧ (compute_actor_vectors km groups 1).1
        = ((sortGroups groups).filter (fun g => !(succEmbs g).isEmpty)).map
            (fun g => normalizeVec (meanVec (succEmbs g)))
    ∧ (compute_actor_vectors km groups 1).2
        = ((sortGroups groups).filter (fun g => !(succEmbs g).isEmpty)).map
            (fun g => (⟨some g.1, (scanEntity g.1 g.2).rep, none⟩ : MetaEntry))
    ∧ List.Pairwise (fun a b : MetaEntry => a.name.getD "" ≤ b.name.getD "")
        (compute_actor_vectors km groups 1).2
    ∧ ∀ v ∈ (compute_actor_vectors km groups 1).1,
        |norm2 (normalizeVec v) - 1| ≤ 1/100000 := by
  rw [compute_actor_vectors_one]
  refine ⟨by simp, rfl, rfl, ?_, ?_⟩
  · have hf : List.Pairwise (fun a b : String × List Img => a.1 ≤ b.1)
        ((sortGroups groups).filter (fun g => !(succEmbs g).isEmpty)) :=
      List.Pairwise.sublist (List.filter_sublist _) (sortGroups_sorted groups)
    exact List.Pairwise.map _ (fun a b hab => by simpa using hab) hf
  · intro v hv
    simp only [List.mem_map] at hv
    obtain ⟨g, hg, rfl⟩ := hv
    exact normalized_load_close _ (h g hg)

/-- Witness for C6: one entity with one successfully embedded image. -/
theorem builder_output_index_invariant_witness :
    (∀ g ∈ (sortGroups [("a", [Img.mk ".jpg" (some [(1:ℝ), 0]) true])]).filter
        (fun g => !(succEmbs g).isEmpty),
        (1:ℝ)/1000000 ≤ norm2 (meanVec (succEmbs g)))
    ∧ ((compute_actor_vectors (fun _ _ => none)
          [("a", [Img.mk ".jpg" (some [(1:ℝ), 0]) true])] 1).1.length
        = (compute_actor_vectors (fun _ _ => none)
            [("a", [Img.mk ".jpg" (some [(1:ℝ), 0]) true])] 1).2.length
      ∧ (compute_actor_vectors (fun _ _ => none)
            [("a", [Img.mk ".jpg" (some [(1:ℝ), 0]) true])] 1).1
          = ((sortGroups [("a", [Img.mk ".jpg" (some [(1:ℝ), 0]) true])]).filter
              (fun g => !(succEmbs g).isEmpty)).map
                (fun g => normalizeVec (meanVec (succEmbs g)))
      ∧ (compute_actor_vectors (fun _ _ => none)
            [("a", [Img.mk ".jpg" (some [(1:ℝ), 0]) true])] 1).2
          = ((sortGroups [("a", [Img.mk ".jpg" (some [(1:ℝ), 0]) true])]).filter
              (fun g => !(succEmbs g).isEmpty)).map
                (fun g => (⟨some g.1, (scanEntity g.1 g.2).rep, none⟩ : MetaEntry))
      ∧ List.Pairwise (fun a b : MetaEntry => a.name.getD "" ≤ b.name.getD "")
          (compute_actor_vectors (fun _ _ => none)
            [("a", [Img.mk ".jpg" (some [(1:ℝ), 0]) true])] 1).2
      ∧ ∀ v ∈ (compute_actor_vectors (fun _ _ => none)
            [("a", [Img.mk ".jpg" (some [(1:ℝ), 0]) true])] 1).1,
          |norm2 (normalizeVec v) - 1| ≤ 1/100000) := by
  have hfil : (sortGroups [("a", [Img.mk ".jpg" (some [(1:ℝ), 0]) true])]).filter
      (fun g => !(succEmbs g).isEmpty)
      = [("a", [Img.mk ".jpg" (some [(1:ℝ), 0]) true])] := rfl
  have hh : ∀ g ∈ (sortGroups [("a", [Img.mk ".jpg" (some [(1:ℝ), 0]) true])]).filter
      (fun g => !(succEmbs g).isEmpty),
      (1:ℝ)/1000000 ≤ norm2 (meanVec (succEmbs g)) := by
    intro g hg
    rw [hfil] at hg
    rcases List.mem_singleton.mp hg with rfl
    have hs : succEmbs ("a", [Img.mk ".jpg" (some [(1:ℝ), 0]) true]) = [[(1:ℝ), 0]] := rfl
    rw [hs]
    simp [meanVec, sumVecs, norm2, dot]
    norm_num
  exact ⟨hh, builder_output_index_invariant (fun _ _ => none)
    [("a", [Img.mk ".jpg" (some [(1:ℝ), 0]) true])] hh⟩

/-- Dividing the right operand's coordinates by `c` divides the dot product
by `c`. -/
lemma dot_map_div_right (a : List ℝ) : ∀ (b : List ℝ) (c : ℝ),
    dot a (b.map (fun x => x / c)) = dot a b / c := by
  induction a with
  | nil => intro b c; simp [dot]
  | cons x t ih =>
    intro b c
    cases b with
    | nil => simp [dot]
    | cons y u =>
      show x * (y / c) + dot t (u.map (fun x => x / c)) = (x * y + dot t u) / c
      rw [ih u c, ← mul_div_assoc, div_add_div_same]

/-- Polarization identity for the coordinatewise difference. -/
lemma dot_sub_self (a : List ℝ) : ∀ b : List ℝ, a.length = b.length →
    dot (List.zipWith (· - ·) a b) (List.zipWith (· - ·) a b)
      = dot a a - 2 * dot a b + dot b b := by
  induction a with
  | nil =>
    intro b h
    cases b with
    | nil => simp [dot]
    | cons y u => simp at h
  | cons x t ih =>
    intro b h
    cases b with
    | nil => simp at h
    | cons y u =>
      have h' : t.length = u.length := by simpa using h
      show (x - y) * (x - y)
            + dot (List.zipWith (· - ·) t u) (List.zipWith (· - ·) t u)
          = (x * x + dot t t) - 2 * (x * y + dot t u) + (y * y + dot u u)
      rw [ih u h']
      ring

/-- Two equal-length vectors whose difference has zero self dot product are
equal. -/
lemma eq_of_dot_sub_eq_zero (a : List ℝ) : ∀ b : List ℝ, a.length = b.length →
    dot (List.zipWith (· - ·) a b) (List.zipWith (· - ·) a b) = 0 → a = b := by
  induction a with
  | nil =>
    intro b h _
    cases b with
    | nil => rfl
    | cons y u => simp at h
  | cons x t ih =>
    intro b h hz
    cases b with
    | nil => simp at h
    | cons y u =>
      have h' : t.length = u.length := by simpa using h
      have hd : (x - y) * (x - y)
          + dot (List.zipWith (· - ·) t u) (List.zipWith (· - ·) t u) = 0 := hz
      have h1 : 0 ≤ (x - y) * (x - y) := mul_self_nonneg _
      have h2 : 0 ≤ dot (List.zipWith (· - ·) t u) (List.zipWith (· - ·) t u) :=
        dot_self_nonneg _
      have hx : (x - y) * (x - y) = 0 := by linarith
      have ht : dot (List.zipWith (· - ·) t u) (List.zipWith (· - ·) t u) = 0 := by
        linarith
      have hxy : x = y := sub_eq_zero.mp (mul_self_eq_zero.mp hx)
      rw [hxy, ih u h' ht]

/-- Strict Cauchy–Schwarz consequence on the unit sphere: two distinct
equal-length unit vectors have dot product strictly below 1. -/
lemma dot_lt_one_of_ne (a b : List ℝ) (hlen : a.length = b.length)
    (ha : dot a a = 1) (hb : dot b b = 1) (hne : a ≠ b) : dot a b < 1 := by
  have hnz : dot (List.zipWith (· - ·) a b) (List.zipWith (· - ·) a b) ≠ 0 :=
    fun hz => hne (eq_of_dot_sub_eq_zero a b hlen hz)
  have hpos : 0 < dot (List.zipWith (· - ·) a b) (List.zipWith (· - ·) a b) :=
    lt_of_le_of_ne (dot_self_nonneg _) (Ne.symm hnz)
  rw [dot_sub_self a b hlen, ha, hb] at hpos
  linarith

/-- A vector of unit norm has unit self dot product. -/
lemma dot_self_eq_one_of_norm2 (v : List ℝ) (h : norm2 v = 1) : dot v v = 1 := by
  have h0 := dot_self_nonneg v
  calc dot v v = Real.sqrt (dot v v) ^ 2 := (Real.sq_sqrt h0).symm
    _ = 1 := by
        rw [show Real.sqrt (dot v v) = 1 from h]
        norm_num

/-- Reading a mapped list at a valid index. -/
lemma getD_map_of_lt {α β : Type} (f : α → β) (d : β) :
    ∀ (l : List α) (i : Nat) (hi : i < l.length),
      (l.map f).getD i d = f (l.get ⟨i, hi⟩) := by
  intro l
  induction l with
  | nil => intro i hi; exact absurd hi (Nat.not_lt_zero i)
  | cons x t ih =>
    intro i hi
    cases i with
    | zero => rfl
    | succ n =>
      have hn : n < t.length := Nat.lt_of_succ_lt_succ hi
      simpa using ih n hn

/-- If one key is the strict unique maximum, `argsort` lists its index
first. -/
lemma argsortDesc_head_of_strict_max (keys : List ℝ) (j : Nat)
    (hj : j < keys.length)
    (hmax : ∀ i, i < keys.length → i ≠ j → keys.getD i 0 < keys.getD j 0) :
    (argsortDesc keys).head? = some j := by
  have hperm := argsortDesc_perm keys
  have hlen : (argsortDesc keys).length = keys.length := argsortDesc_length keys
  have hne : argsortDesc keys ≠ [] := by
    intro h
    rw [h] at hlen
    simp at hlen
    omega
  obtain ⟨h, t, hl⟩ := List.exists_cons_of_ne_nil hne
  have hhmem : h ∈ argsortDesc keys := by
    rw [hl]
    exact List.mem_cons_self _ _
  have hh : h < keys.length := argsortDesc_mem hhmem
  have hjmem : j ∈ argsortDesc keys := hperm.mem_iff.mpr (List.mem_range.mpr hj)
  by_cases hcase : h = j
  · rw [hl, hcase]
    rfl
  · have hjt : j ∈ t := by
      rcases List.mem_cons.mp (hl ▸ hjmem) with heq | hmem
      · exact absurd heq.symm hcase
      · exact hmem
    have hsorted := argsortDesc_sorted keys
    rw [hl] at hsorted
    have hle : keys.getD j 0 ≤ keys.getD h 0 := List.rel_of_pairwise_cons hsorted hjt
    have hlt : keys.getD h 0 < keys.getD j 0 := hmax h hh hcase
    exact absurd hle (not_le.mpr hlt)

/-- C9: for every loaded index (whose rows, per the Index invariant, are
unit vectors of a common dimension) containing a row `v` at position `j`
with no other identical row, `topk` queried with `v` itself (any `k ≥ 1`)
returns row `j` first, with similarity score `1 / (1 + ε)`, which equals 1.0
within the `10⁻⁵` floating tolerance. -/
theorem topk_self_query_top (emb : List (List ℝ)) (v : List ℝ) (j k : Nat)
    (hk : 1 ≤ k) (hj : j < emb.length)
    (hvj : emb.get ⟨j, hj⟩ = v)
    (hunit : ∀ r ∈ emb, norm2 r = 1)
    (hlenr : ∀ r ∈ emb, r.length = v.length)
    (huniq : ∀ i (hi : i < emb.length), i ≠ j → emb.get ⟨i, hi⟩ ≠ v) :
    (ActorIndex.topkCore emb v k).head? = some (j, 1 / (1 + eps))
    ∧ |1 / (1 + eps) - 1| ≤ 1/100000 := by
  have hvmem : v ∈ emb := hvj ▸ List.get_mem emb j hj
  have hnv : norm2 v = 1 := hunit v hvmem
  have hdvv : dot v v = 1 := dot_self_eq_one_of_norm2 v hnv
  have hqeq : normalizeVec v = v.map (fun x => x / (1 + eps)) := by
    unfold normalizeVec
    rw [hnv]
  have hgetD : ∀ i (hi : i < emb.length),
      (emb.map (fun row => dot row (normalizeVec v))).getD i 0
        = dot (emb.get ⟨i, hi⟩) v / (1 + eps) := by
    intro i hi
    rw [getD_map_of_lt _ 0 emb i hi, hqeq, dot_map_div_right]
  have hsimj : (emb.map (fun row => dot row (normalizeVec v))).getD j 0
      = 1 / (1 + eps) := by
    rw [hgetD j hj, hvj, hdvv]
  have hmax : ∀ i, i < (emb.map (fun row => dot row (normalizeVec v))).length →
      i ≠ j →
      (emb.map (fun row => dot row (normalizeVec v))).getD i 0
        < (emb.map (fun row => dot row (normalizeVec v))).getD j 0 := by
    intro i hi hne
    have hi' : i < emb.length := by simpa using hi
    rw [hgetD i hi', hsimj]
    have hrow := List.get_mem emb i hi'
    have hdot : dot (emb.get ⟨i, hi'⟩) v < 1 :=
      dot_lt_one_of_ne _ v (by rw [hlenr _ hrow])
        (dot_self_eq_one_of_norm2 _ (hunit _ hrow)) hdvv (huniq i hi' hne)
    have hden : (0:ℝ) < 1 + eps := by linarith [eps_pos]
    exact (div_lt_div_iff_of_pos_right hden).mpr hdot
  have hhead : (argsortDesc (emb.map (fun row => dot row (normalizeVec v)))).head?
      = some j :=
    argsortDesc_head_of_strict_max _ j (by simpa using hj)
      (fun i hi hne => hmax i (by simpa using hi) hne)
  obtain ⟨t, ht⟩ :
      ∃ t, argsortDesc (emb.map (fun row => dot row (normalizeVec v))) = j :: t := by
    cases hargs : argsortDesc (emb.map (fun row => dot row (normalizeVec v))) with
    | nil =>
      rw [hargs] at hhead
      exact absurd hhead (by simp)
    | cons a u =>
      rw [hargs] at hhead
      exact ⟨u, by rw [Option.some.inj (by simpa using hhead : some a = some j)]⟩
  obtain ⟨k', rfl⟩ : ∃ k', k = k' + 1 := ⟨k - 1, (Nat.succ_pred_eq_of_pos hk).symm⟩
  constructor
  · have hcore : ActorIndex.topkCore emb v (k' + 1)
        = ((j :: t).take (k' + 1)).map
            (fun i => (i, (emb.map (fun row => dot row (normalizeVec v))).getD i 0)) := by
      simp only [ActorIndex.topkCore]
      rw [ht]
    rw [hcore, List.take_succ_cons, List.map_cons, List.head?_cons, hsimj]
  · rw [abs_le]
    constructor
    · norm_num [eps]
    · norm_num [eps]

/-- Witness for C9: the identity-like two-row index queried with its first
row. -/
theorem topk_self_query_top_witness :
    1 ≤ 1
    ∧ 0 < [[(1:ℝ), 0], [0, 1]].length
    ∧ ((ActorIndex.topkCore [[(1:ℝ), 0], [0, 1]] [1, 0] 1).head?
          = some (0, 1 / (1 + eps))
      ∧ |1 / (1 + eps) - 1| ≤ 1/100000) := by
  have hj : 0 < [[(1:ℝ), 0], [0, 1]].length := by norm_num
  refine ⟨le_refl 1, hj,
    topk_self_query_top [[(1:ℝ), 0], [0, 1]] [1, 0] 0 1 (le_refl 1) hj rfl ?_ ?_ ?_⟩
  · intro r hr
    simp only [List.mem_cons, List.not_mem_nil, or_false] at hr
    rcases hr with rfl | rfl <;> simp [norm2, dot]
  · intro r hr
    simp only [List.mem_cons, List.not_mem_nil, or_false] at hr
    rcases hr with rfl | rfl <;> rfl
  · intro i hi hne
    have hi2 : i < 2 := by simpa using hi
    have hcases : i = 0 ∨ i = 1 := by omega
    rcases hcases with rfl | rfl
    · exact absurd rfl hne
    · intro hEq
      simp at hEq
